import Mathlib

/-!
Verification of the MultiWordNet entity-resolution and graph-navigation core
(`multiwordnet/wordnet.py`, `multiwordnet/db/__init__.py`).

The Python code is shallowly embedded: each database-backed method becomes a
Lean function parameterised over the backing store, modelled as a partial map
from a language to an optional table (`db.connect` returns a cursor when the
table file exists and `None` otherwise, so an absent table is `none`).
Python exceptions become `Except PyErr`; a constructor that can yield `None`
returns an `Option`.
-/

namespace MultiWordnet

/-- Python exceptions that the embedded code paths can raise.
`valueError` and `posError` carry the formatted message, as the source
interpolates the conflicting candidates into the exception text. -/
inductive PyErr where
  | keyError : PyErr
  | indexError : PyErr
  | typeError : PyErr
  | attributeError : PyErr
  | valueError : String → PyErr
  | posError : String → PyErr
deriving DecidableEq, Repr

/-- A constructed `Synset` instance: `Synset.__init__` stores `_id` and
`_language`; all other fields start unset and are populated lazily. -/
structure Synset where
  id : String
  language : String
deriving DecidableEq, Repr, Inhabited

/-- `Synset.pos`: the first character of the id (`self.id[0]`), as a
one-character string (empty when the id is empty). -/
def Synset.pos (s : Synset) : String :=
  s.id.take 1

/-- `Synset.offset`: `self.id[2:]`. -/
def Synset.offset (s : Synset) : String :=
  s.id.drop 2

/-- The `_language_names` marker table inside `Synset.get_synset_language`:
the character at index 2 of a synset id maps to the verbose language name.
(The source really does map `P` to `english` and `W` to `italian`.) -/
def languageNames (c : Char) : Option String :=
  if c = 'P' then some "english"
  else if c = 'N' then some "italian"
  else if c = 'W' then some "italian"
  else if c = 'Y' then some "italian"
  else if c = 'H' then some "hebrew"
  else if c = 'S' then some "spanish"
  else if c = 'L' then some "latin"
  else if c = 'R' then some "romanian"
  else none

/-- `Synset.get_synset_language(id)`.  The Python body runs only under
`if id:` (a falsy id silently returns `None`, modelled as `.ok none`);
`id[2]` raises `IndexError` on an id shorter than three characters;
a non-digit marker character absent from `_language_names` raises
`KeyError`.  `Char.isDigit` matches `str.isdigit` on the ASCII ids used
by the database. -/
def getSynsetLanguage (id : String) : Except PyErr (Option String) :=
  if id = "" then .ok none
  else
    match id.data.get? 2 with
    | none => .error .indexError
    | some c =>
      if c.isDigit then .ok (some "english")
      else
        match languageNames c with
        | some l => .ok (some l)
        | none => .error .keyError

/-- The backing store for synset rows: `connect(language, "synset")` yields a
table (a partial map from synset id to its row) when the database file
exists, and `none` otherwise.  Row contents are irrelevant to construction,
which only tests whether `fetchone` found a row, so a row is a list of
column strings. -/
def SynsetDB : Type :=
  String → Option (String → Option (List String))

/-- One tier of `Synset.__new__`: `db(language, "synset")` followed by
`SELECT * FROM {language}_synset WHERE id='{id}'` and `fetchone` —
`none` both when the table is absent and when no row matches. -/
def dbSynsetLookup (db : SynsetDB) (language id : String) : Option (List String) :=
  match db language with
  | none => none
  | some table => table id

/-- `Synset.__new__(cls, id, language)`.  Returns `None` when either argument
is falsy; otherwise tries the store of `get_synset_language(id)`, then the
requested language's store, then the English store, and builds an instance
from the first row found, `None` when all three miss.  A malformed id makes
`get_synset_language` raise before any lookup. -/
def synsetNew (id language : String) (db : SynsetDB) : Except PyErr (Option Synset) :=
  if id = "" ∨ language = "" then .ok none
  else
    match getSynsetLanguage id with
    | .error e => .error e
    | .ok originOpt =>
      let r1 : Option (List String) :=
        match originOpt with
        | some origin => dbSynsetLookup db origin id
        | none => none
      let r2 : Option (List String) :=
        match r1 with
        | some r => some r
        | none => dbSynsetLookup db language id
      let r3 : Option (List String) :=
        match r2 with
        | some r => some r
        | none => dbSynsetLookup db "english" id
      .ok (r3.map (fun _ => ⟨id, language⟩))

/-- A row of the `<L>_index` table restricted to the four id columns that
`Lemma.__new__` selects (`SELECT id_n, id_v, id_a, id_r ... WHERE lemma=`).
SQL `NULL` and the empty string are both falsy in the Python truth tests,
so a missing column value is the empty string. -/
structure IndexRow where
  id_n : String
  id_v : String
  id_a : String
  id_r : String
deriving DecidableEq, Repr

/-- The per-language `<L>_index` table: `none` when `db(language, "index")`
finds no database file, otherwise a partial map from surface form to row. -/
def IndexDB : Type :=
  Option (String → Option IndexRow)

/-- A constructed `Lemma` instance: `__new__`/`__init__` store the surface
form and the (possibly resolved) part of speech. -/
structure Lemma where
  lemma_ : String
  pos : String
  language : String
deriving DecidableEq, Repr, Inhabited

/-- The apostrophe character, kept out of literal form for clarity of the
character-level string operations below. -/
def quoteChar : Char := Char.ofNat 39

/-- Substring test `"''" in lemma`: two consecutive apostrophes. -/
def hasDoubledQuote : List Char → Bool
  | c1 :: c2 :: rest => (c1 = quoteChar && c2 = quoteChar) || hasDoubledQuote (c2 :: rest)
  | _ => false

/-- `lemma.replace("'", "''")`: double every apostrophe. -/
def doubleQuotes (cs : List Char) : List Char :=
  cs.flatMap (fun c => if c = quoteChar then [quoteChar, quoteChar] else [c])

/-- The surface-form normalisation at the top of `Lemma.__new__`: a lemma
containing a doubled apostrophe is left alone, otherwise single apostrophes
are doubled (SQL escaping), and spaces become underscores.  String
`replace` is rendered character by character so the kernel can evaluate
it. -/
def lemmaPreprocess (lemma_ : String) : String :=
  let cs := lemma_.data
  let cs1 :=
    if hasDoubledQuote cs then cs
    else if cs.contains quoteChar then doubleQuotes cs
    else cs
  let cs2 := if cs1.contains ' ' then cs1.map (fun c => if c = ' ' then '_' else c) else cs1
  String.mk cs2

/-- The wildcard resolution inside `Lemma.__new__`: `resolved_pos` collects
one letter per non-empty id column, in the order n, v, a, r. -/
def resolvedPos (row : IndexRow) : String :=
  (if row.id_n ≠ "" then "n" else "")
    ++ (if row.id_v ≠ "" then "v" else "")
    ++ (if row.id_a ≠ "" then "a" else "")
    ++ (if row.id_r ≠ "" then "r" else "")

/-- `Lemma.__new__(cls, lemma, pos, ...)` for an index-model language (the
non-Latin branch).  The index row for the normalised surface form is
fetched; with a concrete part of speech the single selected column must be
non-empty; with the wildcard `'*'` the four columns are resolved to a
part-of-speech string, and more than one candidate raises `POSError` with
the comma-separated candidates.  A part of speech outside the `db_column`
dictionary raises `KeyError` before the query. -/
def lemmaNewIndex (lemma_ pos language : String) (index : IndexDB) :
    Except PyErr (Option Lemma) :=
  let lem := lemmaPreprocess lemma_
  match index with
  | none => .ok none
  | some table =>
    if pos = "n" ∨ pos = "v" ∨ pos = "a" ∨ pos = "r" ∨ pos = "*" then
      match table lem with
      | none => .ok none
      | some row =>
        if pos = "n" then
          if row.id_n = "" then .ok none else .ok (some ⟨lem, "n", language⟩)
        else if pos = "v" then
          if row.id_v = "" then .ok none else .ok (some ⟨lem, "v", language⟩)
        else if pos = "a" then
          if row.id_a = "" then .ok none else .ok (some ⟨lem, "a", language⟩)
        else if pos = "r" then
          if row.id_r = "" then .ok none else .ok (some ⟨lem, "r", language⟩)
        else
          let rp := resolvedPos row
          if rp.length > 1 then
            .error (.posError ("cannot disambiguate '" ++ lem ++ "' between '"
              ++ String.intercalate ", " (rp.data.map (fun c => String.mk [c])) ++ "'"))
          else .ok (some ⟨lem, rp, language⟩)
    else .error .keyError

/-- A constructed `Relation` instance, as stored by `Relation.__init__`:
the optional lemma columns keep their raw values (`None` for SQL `NULL` or
an omitted argument), and `_status` is normalised to `"new"` or `""`. -/
structure Relation where
  type_ : String
  id_source : String
  id_target : String
  w_source : Option String
  w_target : Option String
  status : String
  language : String
deriving DecidableEq, Repr

/-- `Relation.__init__`: stores the first four arguments unchanged and maps
a status of `'new'`/`'NEW'` to its lowercase form, anything else to `''`. -/
def relationInit (type_ id_source id_target : String)
    (w_source w_target status : Option String) (language : String) : Relation :=
  { type_ := type_
    id_source := id_source
    id_target := id_target
    w_source := w_source
    w_target := w_target
    status := if status = some "new" ∨ status = some "NEW" then "new" else ""
    language := language }

/-- The fixed `Relation.types` table: for each part of speech, the type
codes it defines (the raw `r'\\'` key is the two-character backslash pair).
A part of speech outside the table is `none` (a Python `KeyError`). -/
def relationTypes (pos : String) : Option (List String) :=
  if pos = "n" then
    some ["!", "@", "~", "#m", "#s", "#p", "%m", "%s", "%p", "=", "|",
          "+r", "-r", "+c", "-c", "\\\\", "/"]
  else if pos = "v" then
    some ["!", "@", "~", "*", ">", "^", "$", "|", "+c", "-c", "\\\\", "/"]
  else if pos = "a" then
    some ["!", "@", "~", "&", "<", "\\\\", "=", "^", "|", "+c", "-c", "/"]
  else if pos = "r" then
    some ["!", "@", "~", "\\\\", "|", "+c", "-c", "/"]
  else none

/-- `Synset.get_relations(type)`: validate the type against
`Relation.types[self.pos]` and filter the synset's relation list; an
undefined type raises `ValueError` with the source's message (the
membership test runs before the generator is consumed, so the error is
eager).  The relation list is passed in as computed by `Synset.relations`. -/
def getRelations (s : Synset) (rels : List Relation) (type_ : String) :
    Except PyErr (List Relation) :=
  match relationTypes s.pos with
  | none => .error .keyError
  | some ts =>
    if type_ ∈ ts then .ok (rels.filter (fun r => r.type_ == type_))
    else .error (.valueError ("No relation type '" ++ type_ ++ "' for '" ++ s.pos ++ "'!"))

/-- A row of a `<L>_relation` (or `common_relation`) table, in column order:
type, id_source, id_target, w_source, w_target, status.  The lemma and
status columns may be SQL `NULL`, hence `Option`. -/
structure RelationRow where
  type_ : String
  id_source : String
  id_target : String
  w_source : Option String
  w_target : Option String
  status : Option String
deriving DecidableEq, Repr

/-- The relation tables: `language ↦ none` when `db(language, "relation")`
finds no database file, otherwise all rows of `<language>_relation`. -/
def RelationDB : Type :=
  String → Option (List RelationRow)

/-- `Synset.relations`: gather the rows of `common_relation` and of the
synset's own language's relation table whose `id_source` is this synset's
id, skipping either table when absent, and build each `Relation` from only
the first four columns (`Relation(result[0], result[1], result[2],
result[3])`), so `w_target`, `status` and `language` take their defaults. -/
def synsetRelations (s : Synset) (rdb : RelationDB) : List Relation :=
  let fromTable : Option (List RelationRow) → List Relation := fun t =>
    match t with
    | none => []
    | some rows =>
      (rows.filter (fun row => row.id_source == s.id)).map
        (fun row => relationInit row.type_ row.id_source row.id_target
          row.w_source none none "english")
  fromTable (rdb "common") ++ fromTable (rdb s.language)

/-- Truthiness of the stored `_w_target` (`if self._w_target`): SQL `NULL`
and the empty string are both falsy. -/
def optTruthy (o : Option String) : Bool :=
  match o with
  | none => false
  | some s => s ≠ ""

/-- `Relation.is_lexical`: `isinstance(self.w_source, Lemma) and
isinstance(self.w_target, Lemma)`.  The `w_source`/`w_target` properties
return `None` when the stored column is falsy, and otherwise the result of
a `Lemma` construction, which may itself be `None`; that construction is
abstracted by `resolve`. -/
def relationIsLexical (r : Relation) (resolve : String → Option Lemma) : Bool :=
  (match (if optTruthy r.w_source then r.w_source else none) with
   | some w => (resolve w).isSome
   | none => false)
  && (match (if optTruthy r.w_target then r.w_target else none) with
      | some w => (resolve w).isSome
      | none => false)

/-- `Lemma.derivates`: `db(self.language, "relation")` is used without the
`if cursor:` guard found elsewhere, so an absent relation table makes
`None.execute(...)` raise `AttributeError`.  Otherwise the rows with
`w_target = self.lemma` and type `'\'` (the Python literal `'\\'` is a
single backslash) each yield a `Lemma(w_source, pos=id_source[0], ...)`
call, modelled by its (surface, pos) argument pair. -/
def lemmaDerivates (l : Lemma) (rdb : RelationDB) :
    Except PyErr (List (Option String × String)) :=
  match rdb l.language with
  | none => .error .attributeError
  | some rows =>
    .ok ((rows.filter (fun row => row.w_target == some l.lemma_ && row.type_ == "\\")).map
      (fun row => (row.w_source, row.id_source.take 1)))

/-- `Lemma.relatives`: same unguarded cursor use as `Lemma.derivates`; rows
with `w_source = self.lemma` and type `'/'` each yield a
`Lemma(w_target, pos=id_target[0], ...)` call. -/
def lemmaRelatives (l : Lemma) (rdb : RelationDB) :
    Except PyErr (List (Option String × String)) :=
  match rdb l.language with
  | none => .error .attributeError
  | some rows =>
    .ok ((rows.filter (fun row => row.w_source == some l.lemma_ && row.type_ == "/")).map
      (fun row => (row.w_target, row.id_target.take 1)))

/-- Splitting a whitespace-packed id column: `result[i].split(' ')` with the
falsy tokens dropped by the `if syn` guard.  Rendered on the character
list so the kernel can evaluate it. -/
def splitIds (s : String) : List String :=
  ((s.data.splitOn ' ').map String.mk).filter (fun t => t ≠ "")

/-- `Lemma.synsets`: guarded by `if language_index:`, so an absent index
table leaves the result empty.  With the wildcard part of speech the four
id columns are tried in the order n, v, a, r; with a concrete part of
speech the single selected column is used when non-empty.  Each id token
feeds a `Synset(syn, self.language)` construction, modelled by the id. -/
def lemmaSynsets (l : Lemma) (index : IndexDB) : Except PyErr (List String) :=
  match index with
  | none => .ok []
  | some table =>
    if l.pos = "n" ∨ l.pos = "v" ∨ l.pos = "a" ∨ l.pos = "r" ∨ l.pos = "*" then
      match table l.lemma_ with
      | none => .ok []
      | some row =>
        if l.pos = "*" then
          if row.id_n ≠ "" then .ok (splitIds row.id_n)
          else if row.id_v ≠ "" then .ok (splitIds row.id_v)
          else if row.id_a ≠ "" then .ok (splitIds row.id_a)
          else .ok (splitIds row.id_r)
        else
          let col :=
            if l.pos = "n" then row.id_n
            else if l.pos = "v" then row.id_v
            else if l.pos = "a" then row.id_a
            else row.id_r
          if col ≠ "" then .ok (splitIds col) else .ok []
    else .error .keyError

/-- A row of `common_semfield_hierarchy` restricted to the two columns that
`Semfield.__new__` selects (`SELECT code, english`). -/
structure SemfieldRow where
  code : String
  english : String
deriving DecidableEq, Repr

/-- The name normalisation `english.replace(' ', '_')` at the top of
`Semfield.__new__`, rendered character by character so the kernel can
evaluate it. -/
def normalizeEnglish (english : String) : String :=
  String.mk (english.data.map (fun c => if c = ' ' then '_' else c))

/-- The rows matched by the `Semfield.__new__` query: filter on the
normalised English name, and additionally on the code when one is given. -/
def semfieldMatches (english : String) (code : Option String)
    (rows : List SemfieldRow) : List SemfieldRow :=
  let eng := normalizeEnglish english
  rows.filter (fun r =>
    r.english == eng && (match code with
                         | some c => r.code == c
                         | none => true))

/-- `Semfield.__new__(cls, english, code, language)`: normalise the name,
query the hierarchy table (absent table ⇒ no results ⇒ `None`), raise
`ValueError` naming the candidate codes when the name alone matches more
than one row, and otherwise build the instance from the first row,
recording its code and English name. -/
def semfieldNew (english : String) (code : Option String)
    (hierarchy : Option (List SemfieldRow)) : Except PyErr (Option (String × String)) :=
  match hierarchy with
  | none => .ok none
  | some rows =>
    let results := semfieldMatches english code rows
    match results with
    | [] => .ok none
    | r :: rest =>
      if rest.length + 1 > 1 ∧ code = none then
        .error (.valueError ("cannot disambiguate \"" ++ normalizeEnglish english
          ++ "\" between \"" ++ String.intercalate ", " ((r :: rest).map (fun x => x.code))
          ++ "\""))
      else .ok (some (r.code, r.english))

/-- The hypernym successor function: `G s` models
`[relation.target for relation in s.get_relations('@')]`, the per-synset
edge fetch shared by `root`, `max_depth`, `min_depth` and `paths_to_root`
(each `relation.target` is itself a `Synset` construction; the traversal
algorithms consume only the resulting list). -/
def HyperGraph : Type :=
  Synset → List Synset

/-- Membership in the path guard `self in path[1:]`: Python `in` uses
`Synset.__eq__`, which compares ids. -/
def pathHasSynset (path : List Synset) (s : Synset) : Bool :=
  path.any (fun t => t.id == s.id)

/-- `Synset.max_depth(path)`.  The `path` list is a single mutable object
shared by every recursive call, so the state is threaded: the function
returns the computed depth together with the updated path.  A revisit
of a node already in `path[1:]` returns 0 (the source's cycle guard);
`fuel` bounds the recursion depth (Python's call stack), and exhaustion
returns 0 with the path unchanged. -/
def maxDepthAux (G : HyperGraph) : Nat → List Synset → Synset → Nat × List Synset
  | 0, path, _ => (0, path)
  | fuel + 1, path, s =>
    if path.length > 1 && pathHasSynset (path.drop 1) s then (0, path)
    else
      let path2 := path ++ [s]
      match G s with
      | [] => (0, path2)
      | h :: hs =>
        let first := maxDepthAux G fuel path2 h
        let folded := hs.foldl
          (fun (acc : List Nat × List Synset) h2 =>
            let res := maxDepthAux G fuel acc.2 h2
            (acc.1 ++ [res.1], res.2))
          ([first.1], first.2)
        match folded.1 with
        | [] => (0, folded.2)
        | d :: ds => (1 + ds.foldl Nat.max d, folded.2)

/-- `Synset.min_depth` (a property, so callable without arguments): same
shape as `max_depth` with `min` in place of `max`. -/
def minDepthAux (G : HyperGraph) : Nat → List Synset → Synset → Nat × List Synset
  | 0, path, _ => (0, path)
  | fuel + 1, path, s =>
    if path.length > 1 && pathHasSynset (path.drop 1) s then (0, path)
    else
      let path2 := path ++ [s]
      match G s with
      | [] => (0, path2)
      | h :: hs =>
        let first := minDepthAux G fuel path2 h
        let folded := hs.foldl
          (fun (acc : List Nat × List Synset) h2 =>
            let res := minDepthAux G fuel acc.2 h2
            (acc.1 ++ [res.1], res.2))
          ([first.1], first.2)
        match folded.1 with
        | [] => (0, folded.2)
        | d :: ds => (1 + ds.foldl Nat.min d, folded.2)

/-- The `while todo:` loop of `Synset.root`: `todo.pop()` takes the last
element, `seen` holds visited synsets (membership by id, per
`Synset.__eq__`), a node with no hypernyms is appended to the result and
otherwise its hypernyms extend the frontier.  `fuel` bounds the number of
loop iterations; exhaustion returns the result accumulated so far. -/
def rootAux (G : HyperGraph) : Nat → List Synset → List String → List Synset → List Synset
  | 0, _, _, result => result
  | fuel + 1, todo, seen, result =>
    match todo.getLast? with
    | none => result
    | some next =>
      let todo2 := todo.dropLast
      if seen.contains next.id then rootAux G fuel todo2 seen result
      else
        let seen2 := seen ++ [next.id]
        match G next with
        | [] => rootAux G fuel todo2 seen2 (result ++ [next])
        | h :: hs => rootAux G fuel (todo2 ++ h :: hs) seen2 result

/-- `Synset.root`: start the frontier walk from the synset itself. -/
def synsetRoot (G : HyperGraph) (fuel : Nat) (s : Synset) : List Synset :=
  rootAux G fuel [s] [] []

/-- `Synset.paths_to_root`: a node with no hypernym relation contributes
`[[self]]`; otherwise, for each hypernym in order, each of the parent's
root paths is extended with `self` appended at the end.  `fuel` bounds the
recursion depth; exhaustion contributes no paths. -/
def pathsToRoot (G : HyperGraph) : Nat → Synset → List (List Synset)
  | 0, _ => []
  | fuel + 1, s =>
    match G s with
    | [] => [[s]]
    | h :: hs =>
      (h :: hs).flatMap (fun h2 => (pathsToRoot G fuel h2).map (fun p => p ++ [s]))

/-- A Python value reachable from the `breadth_first` queue inside
`Synset.closure`: the initial node is `list(self.get_relations(type))`, a
Python list, and its elements are `Relation` objects. -/
inductive PyVal where
  | pyList : List PyVal → PyVal
  | pyRel : Relation → PyVal
deriving Repr

/-- Size measure for the `breadth_first` termination argument. -/
def pySize : PyVal → Nat
  | .pyRel _ => 1
  | .pyList xs => 1 + (xs.attach.map (fun x => pySize x.val)).sum
decreasing_by
  have h := List.sizeOf_lt_of_mem x.property
  simp only [PyVal.pyList.sizeOf_spec]
  omega

/-- Total size of a queue of (node, depth) pairs. -/
def bfsQueueSize (q : List (PyVal × Nat)) : Nat :=
  (q.map (fun p => pySize p.1)).sum

/-- The `breadth_first` helper with its default `children=iter`: pop the
front of the queue, yield the node, and unless the node's depth equals
`maxdepth`, extend the queue with `iter(node)` — the elements when the
node is a list, nothing when it is a `Relation` (`iter` raises
`TypeError`, which the source catches and ignores). -/
def breadthFirst (maxdepth : Int) : List (PyVal × Nat) → List PyVal
  | [] => []
  | (PyVal.pyRel r, _) :: rest => PyVal.pyRel r :: breadthFirst maxdepth rest
  | (PyVal.pyList xs, depth) :: rest =>
    if (depth : Int) = maxdepth then PyVal.pyList xs :: breadthFirst maxdepth rest
    else PyVal.pyList xs :: breadthFirst maxdepth (rest ++ xs.map (fun c => (c, depth + 1)))
termination_by q => bfsQueueSize q
decreasing_by
  · simp [bfsQueueSize, pySize]
  · simp [bfsQueueSize, pySize]
  · simp [bfsQueueSize, pySize, List.map_append, List.sum_append, Function.comp_def,
      List.attach_map_val]
    have h : List.map (fun x => pySize x) xs = List.map pySize xs := rfl
    rw [h]
    omega

/-- The loop body of `Synset.closure`: each value yielded by
`breadth_first` is asked for its `id` attribute.  Neither a Python list
nor a `Relation` (which exposes `id_source`/`id_target`, not `id`) has
one, so the first yielded value raises `AttributeError`.  The dedup
accumulator (`ids`) and the yielded output are threaded for fidelity. -/
def closureConsume (_selfId : String) :
    List PyVal → List String → List PyVal → Except PyErr (List PyVal)
  | [], _, out => .ok out
  | PyVal.pyList _ :: _, _, _ => .error .attributeError
  | PyVal.pyRel _ :: _, _, _ => .error .attributeError

/-- `Synset.closure(type, depth)` as a generator body: feed
`breadth_first(list(self.get_relations(type)), depth)` — whose first
argument is the relation *list*, with `children` left as `iter` — into
the dedup-and-yield loop. -/
def closureBody (s : Synset) (rs : List Relation) (depth : Int) :
    Except PyErr (List PyVal) :=
  closureConsume s.id (breadthFirst depth [(PyVal.pyList (rs.map PyVal.pyRel), 0)]) [] []

/-- C1: Synset construction consults the stores in exactly three tiers — origin language decoded from the id, then the requested language, then English — returns an instance built from the first match, and yields an absent result (not an error) when every tier misses. -/
theorem synset_new_three_tier_fallback (id language origin : String) (db : SynsetDB)
    (hid : id ≠ "") (hlang : language ≠ "")
    (horigin : getSynsetLanguage id = .ok (some origin)) :
    synsetNew id language db =
      .ok ((((dbSynsetLookup db origin id).or (dbSynsetLookup db language id)).or
        (dbSynsetLookup db "english" id)).map (fun _ => Synset.mk id language)) ∧
    (dbSynsetLookup db origin id = none → dbSynsetLookup db language id = none →
      dbSynsetLookup db "english" id = none → synsetNew id language db = .ok none) := by
  have hmain : synsetNew id language db =
      .ok ((((dbSynsetLookup db origin id).or (dbSynsetLookup db language id)).or
        (dbSynsetLookup db "english" id)).map (fun _ => Synset.mk id language)) := by
    unfold synsetNew
    rw [if_neg (by simp [hid, hlang]), horigin]
    cases h1 : dbSynsetLookup db origin id <;>
      cases h2 : dbSynsetLookup db language id <;>
        cases h3 : dbSynsetLookup db "english" id <;>
          simp [Option.or, h1, h2, h3]
  refine ⟨hmain, fun h1 h2 h3 => ?_⟩
  rw [hmain, h1, h2, h3]
  rfl

/-- Witness for C1 at a concrete id, language and store. -/
theorem synset_new_three_tier_fallback_witness :
    synsetNew "n#00001740" "italian"
      (fun l => if l = "english"
        then some (fun i => if i = "n#00001740" then some ["n#00001740"] else none)
        else none) = .ok (some ⟨"n#00001740", "italian"⟩) := by
  have h := (synset_new_three_tier_fallback "n#00001740" "italian" "english"
    (fun l => if l = "english"
      then some (fun i => if i = "n#00001740" then some ["n#00001740"] else none)
      else none) (by decide) (by decide) (by rfl)).1
  rw [h]
  rfl

/-- C2: index-model Lemma construction with wildcard part of speech raises the disambiguation error naming the candidates exactly when the surface form has index entries under two or more of n, v, a, r; with exactly one candidate it returns a Lemma carrying that part of speech, and an absent row or table is no error. -/
theorem lemma_wildcard_pos_disambiguation (lemma_ language : String)
    (table : String → Option IndexRow) (row : IndexRow) :
    (table (lemmaPreprocess lemma_) = some row →
      (((∃ e, lemmaNewIndex lemma_ "*" language (some table) = .error e) ↔
          2 ≤ (resolvedPos row).length) ∧
       (2 ≤ (resolvedPos row).length →
          lemmaNewIndex lemma_ "*" language (some table) =
            .error (.posError ("cannot disambiguate '" ++ lemmaPreprocess lemma_
              ++ "' between '" ++ String.intercalate ", "
                ((resolvedPos row).data.map (fun c => String.mk [c])) ++ "'"))) ∧
       ((resolvedPos row).length = 1 →
          lemmaNewIndex lemma_ "*" language (some table) =
            .ok (some ⟨lemmaPreprocess lemma_, resolvedPos row, language⟩)))) ∧
    (table (lemmaPreprocess lemma_) = none →
      lemmaNewIndex lemma_ "*" language (some table) = .ok none) := by
  constructor
  · intro h
    have hstep : lemmaNewIndex lemma_ "*" language (some table) =
        (if (resolvedPos row).length > 1 then
          .error (.posError ("cannot disambiguate '" ++ lemmaPreprocess lemma_
            ++ "' between '" ++ String.intercalate ", "
              ((resolvedPos row).data.map (fun c => String.mk [c])) ++ "'"))
         else .ok (some ⟨lemmaPreprocess lemma_, resolvedPos row, language⟩)) := by
      simp [lemmaNewIndex, h]
    by_cases hl : 2 ≤ (resolvedPos row).length
    · rw [hstep, if_pos (by omega)]
      refine ⟨⟨fun _ => hl, fun _ => ⟨_, rfl⟩⟩, fun _ => rfl, fun h1 => by omega⟩
    · rw [hstep, if_neg (by omega)]
      refine ⟨⟨fun he => ?_, fun h2 => by omega⟩, fun h2 => by omega, fun _ => rfl⟩
      obtain ⟨e, he⟩ := he
      exact absurd he (by simp)
  · intro h
    simp [lemmaNewIndex, h]

/-- Witness for C2: a form present only as a verb resolves to a verb Lemma. -/
theorem lemma_wildcard_pos_disambiguation_witness :
    lemmaNewIndex "currere" "*" "latin"
      (some (fun s => if s = "currere" then some ⟨"", "v#00001740", "", ""⟩ else none)) =
      .ok (some ⟨"currere", "v", "latin"⟩) := by
  exact ((lemma_wildcard_pos_disambiguation "currere" "latin"
      (fun s => if s = "currere" then some ⟨"", "v#00001740", "", ""⟩ else none)
      ⟨"", "v#00001740", "", ""⟩).1 (by decide)).2.2 (by decide)

/-- C3: the closure generator never yields a synset — `breadth_first` is fed the relation list itself with the default `children=iter`, so the first yielded value is that list (and later ones are `Relation`s), and the loop body's `target.id` raises `AttributeError` for either; moreover `closure` is declared `@property` while requiring a `type` argument, so `s.closure(type, depth)` already fails with `TypeError` at attribute access.  The claimed BFS enumeration of the transitive closure is unreachable for every input. -/
theorem closure_yields_no_synsets (s : Synset) (rs : List Relation) (depth : Int) :
    closureBody s rs depth = .error .attributeError := by
  unfold closureBody
  rw [breadthFirst]
  split <;> simp [closureConsume]

/-- C4: requesting a relation type outside the fixed `Relation.types[pos]` table fails with the domain `ValueError` rather than returning an empty sequence; in particular `#p` (part-of) is defined for nouns but not verbs, so a verb synset rejects it. -/
theorem get_relations_undefined_type_error :
    (∀ (s : Synset) (rels : List Relation) (type_ : String) (ts : List String),
        relationTypes s.pos = some ts → type_ ∉ ts →
        getRelations s rels type_ =
          .error (.valueError ("No relation type '" ++ type_ ++ "' for '" ++ s.pos ++ "'!"))) ∧
    ("#p" ∈ (relationTypes "n").getD [] ∧ "#p" ∉ (relationTypes "v").getD []) ∧
    (∀ (s : Synset) (rels : List Relation), s.pos = "v" →
        getRelations s rels "#p" = .error (.valueError "No relation type '#p' for 'v'!")) := by
  refine ⟨?_, ⟨by decide, by decide⟩, ?_⟩
  · intro s rels type_ ts hpos hty
    simp [getRelations, hpos, hty]
  · intro s rels hpos
    simp [getRelations, hpos, relationTypes]

/-- Witness for C4: the part-of request on a verb synset. -/
theorem get_relations_undefined_type_error_witness :
    getRelations ⟨"v#00001740", "english"⟩ [] "#p" =
      .error (.valueError "No relation type '#p' for 'v'!") := by
  exact get_relations_undefined_type_error.2.2 ⟨"v#00001740", "english"⟩ [] (by decide)

/-- Draining an empty frontier leaves the accumulated roots unchanged. -/
theorem rootAux_empty_todo (G : HyperGraph) (fuel : Nat) (seen : List String)
    (result : List Synset) : rootAux G fuel [] seen result = result := by
  cases fuel <;> simp [rootAux]

/-- C5: a synset with no hypernym edges has max_depth 0 and min_depth 0, and is the sole element of its own root enumeration. -/
theorem no_hypernym_zero_depth_sole_root (G : HyperGraph) (s : Synset) (fuel : Nat)
    (h : G s = []) :
    (maxDepthAux G (fuel + 1) [] s).1 = 0 ∧
    (minDepthAux G (fuel + 1) [] s).1 = 0 ∧
    synsetRoot G (fuel + 1) s = [s] := by
  refine ⟨?_, ?_, ?_⟩
  · simp [maxDepthAux, h]
  · simp [minDepthAux, h]
  · simp [synsetRoot, rootAux, h]
    exact rootAux_empty_todo G fuel [s.id] [s]

/-- Witness for C5 on a concrete edgeless synset. -/
theorem no_hypernym_zero_depth_sole_root_witness :
    (maxDepthAux (fun _ => []) 1 [] ⟨"n#00001740", "english"⟩).1 = 0 ∧
    (minDepthAux (fun _ => []) 1 [] ⟨"n#00001740", "english"⟩).1 = 0 ∧
    synsetRoot (fun _ => []) 1 ⟨"n#00001740", "english"⟩ = [⟨"n#00001740", "english"⟩] :=
  no_hypernym_zero_depth_sole_root (fun _ => []) ⟨"n#00001740", "english"⟩ 0 rfl

/-- C6: every path produced by paths_to_root is non-empty, starts at a node with no hypernym parent and ends at the synset itself; a parentless synset contributes exactly the singleton path.  The fuel parameter models the recursion stack, which on a finite acyclic graph is deep enough for some fuel; the structural properties hold for every fuel value. -/
theorem paths_to_root_root_first_self_last (G : HyperGraph) :
    (∀ (fuel : Nat) (s : Synset) (p : List Synset), p ∈ pathsToRoot G fuel s →
        (∃ r, p.head? = some r ∧ G r = []) ∧ p.getLast? = some s) ∧
    (∀ (fuel : Nat) (s : Synset), G s = [] → pathsToRoot G (fuel + 1) s = [[s]]) := by
  constructor
  · intro fuel
    induction fuel with
    | zero =>
      intro s p hp
      simp [pathsToRoot] at hp
    | succ n ih =>
      intro s p hp
      rw [pathsToRoot] at hp
      cases hG : G s with
      | nil =>
        rw [hG] at hp
        simp at hp
        subst hp
        exact ⟨⟨s, rfl, hG⟩, rfl⟩
      | cons h hs =>
        rw [hG] at hp
        simp only [List.mem_flatMap, List.mem_map] at hp
        obtain ⟨h2, _, q, hq, rfl⟩ := hp
        obtain ⟨⟨r, hr1, hr2⟩, hlast⟩ := ih h2 q hq
        have hqne : q ≠ [] := by
          intro e
          subst e
          simp at hlast
        refine ⟨⟨r, ?_, hr2⟩, ?_⟩
        · cases q with
          | nil => exact absurd rfl hqne
          | cons a t => simpa using hr1
        · simp [List.getLast?_concat]
  · intro fuel s h
    rw [pathsToRoot, h]

/-- Witness for C6 on a two-node chain. -/
theorem paths_to_root_root_first_self_last_witness :
    (∃ r, ([⟨"n#a", "english"⟩, ⟨"n#b", "english"⟩] : List Synset).head? = some r ∧
        (fun t : Synset => if t.id = "n#b" then [(⟨"n#a", "english"⟩ : Synset)] else []) r = []) ∧
    ([⟨"n#a", "english"⟩, ⟨"n#b", "english"⟩] : List Synset).getLast? =
      some ⟨"n#b", "english"⟩ :=
  (paths_to_root_root_first_self_last
    (fun t => if t.id = "n#b" then [⟨"n#a", "english"⟩] else [])).1 2 ⟨"n#b", "english"⟩
    [⟨"n#a", "english"⟩, ⟨"n#b", "english"⟩] (by decide)

/-- C7 counterexample: the empty identifier is malformed (too short), yet `get_synset_language` returns an absent result instead of failing with a decoding error, because the whole body runs under `if id:`. -/
theorem get_synset_language_empty_id : getSynsetLanguage "" = Except.ok none := rfl

/-- C7 (amended): `get_synset_language` is a pure function of the id; a digit at position 2 yields English, any other character there is resolved through the fixed marker table, an unknown marker raises `KeyError` and a non-empty id shorter than three characters raises `IndexError`; the empty id alone yields an absent result rather than an error. -/
theorem get_synset_language_fixed_table :
    (∀ (id : String) (c : Char), id.data.get? 2 = some c → c.isDigit = true →
        getSynsetLanguage id = .ok (some "english")) ∧
    (∀ (id : String) (c : Char) (l : String), id.data.get? 2 = some c → c.isDigit = false →
        languageNames c = some l → getSynsetLanguage id = .ok (some l)) ∧
    (∀ (id : String) (c : Char), id.data.get? 2 = some c → c.isDigit = false →
        languageNames c = none → getSynsetLanguage id = .error .keyError) ∧
    (∀ id : String, id ≠ "" → id.data.get? 2 = none →
        getSynsetLanguage id = .error .indexError) ∧
    getSynsetLanguage "" = .ok none := by
  refine ⟨?_, ?_, ?_, ?_, rfl⟩
  · intro id c hget hdig
    have hne : id ≠ "" := by
      intro e
      subst e
      simp at hget
    simp only [List.get?_eq_getElem?] at hget
    simp [getSynsetLanguage, hne, hget, hdig]
  · intro id c l hget hdig hlang
    have hne : id ≠ "" := by
      intro e
      subst e
      simp at hget
    simp only [List.get?_eq_getElem?] at hget
    simp [getSynsetLanguage, hne, hget, hdig, hlang]
  · intro id c hget hdig hlang
    have hne : id ≠ "" := by
      intro e
      subst e
      simp at hget
    simp only [List.get?_eq_getElem?] at hget
    simp [getSynsetLanguage, hne, hget, hdig, hlang]
  · intro id hne hget
    simp only [List.get?_eq_getElem?] at hget
    simp [getSynsetLanguage, hne, hget]

/-- Witness for C7 on the Latin marker. -/
theorem get_synset_language_fixed_table_witness :
    getSynsetLanguage "n#L0001" = .ok (some "latin") :=
  get_synset_language_fixed_table.2.1 "n#L0001" 'L' "latin" (by decide) (by decide) (by decide)

/-- C8: Semfield construction fails with the disambiguation error enumerating the candidate codes exactly when the code is omitted and the name matches more than one hierarchy row; a unique match or an explicit code succeeds with the matching row (every row matched under an explicit code carries exactly the requested name and code), and no match yields an absent result. -/
theorem semfield_name_code_disambiguation (english : String) (code : Option String)
    (rows : List SemfieldRow) :
    ((∃ e, semfieldNew english code (some rows) = .error e) ↔
        code = none ∧ 2 ≤ (semfieldMatches english code rows).length) ∧
    (∀ r rest, code = none → semfieldMatches english code rows = r :: rest → rest ≠ [] →
        semfieldNew english code (some rows) =
          .error (.valueError ("cannot disambiguate \"" ++ normalizeEnglish english
            ++ "\" between \"" ++ String.intercalate ", "
              ((r :: rest).map (fun x => x.code)) ++ "\""))) ∧
    (semfieldMatches english code rows = [] →
        semfieldNew english code (some rows) = .ok none) ∧
    (∀ r, semfieldMatches english code rows = [r] →
        semfieldNew english code (some rows) = .ok (some (r.code, r.english))) ∧
    (∀ c r rest, code = some c → semfieldMatches english code rows = r :: rest →
        semfieldNew english code (some rows) = .ok (some (r.code, r.english))) ∧
    (∀ c r, code = some c → r ∈ semfieldMatches english code rows →
        r.code = c ∧ r.english = normalizeEnglish english) := by
  have hview : ∀ (r : SemfieldRow) (rest : List SemfieldRow),
      semfieldMatches english code rows = r :: rest →
      semfieldNew english code (some rows) =
        (if rest.length + 1 > 1 ∧ code = none then
          .error (.valueError ("cannot disambiguate \"" ++ normalizeEnglish english
            ++ "\" between \"" ++ String.intercalate ", "
              ((r :: rest).map (fun x => x.code)) ++ "\""))
         else .ok (some (r.code, r.english))) := by
    intro r rest hm
    simp [semfieldNew, hm]
  have hmem : ∀ c r, code = some c → r ∈ semfieldMatches english code rows →
      r.code = c ∧ r.english = normalizeEnglish english := by
    intro c r hcode hr
    subst hcode
    simp only [semfieldMatches, List.mem_filter, Bool.and_eq_true, beq_iff_eq] at hr
    exact ⟨hr.2.2, hr.2.1⟩
  refine ⟨⟨?_, ?_⟩, ?_, ?_, ?_, ?_, hmem⟩
  · rintro ⟨e, he⟩
    rcases hm : semfieldMatches english code rows with _ | ⟨r, rest⟩
    · have hn : semfieldNew english code (some rows) = .ok none := by
        simp [semfieldNew, hm]
      rw [hn] at he
      cases he
    · have hn := hview r rest hm
      by_cases hcond : rest.length + 1 > 1 ∧ code = none
      · refine ⟨hcond.2, ?_⟩
        simp only [List.length_cons]
        omega
      · rw [if_neg hcond] at hn
        rw [hn] at he
        cases he
  · rintro ⟨hc, hlen⟩
    rcases hm : semfieldMatches english code rows with _ | ⟨r, rest⟩
    · rw [hm] at hlen
      simp at hlen
    · have hn := hview r rest hm
      rw [hm] at hlen
      cases rest with
      | nil => simp at hlen
      | cons r2 rest2 =>
        rw [if_pos ⟨by simp, hc⟩] at hn
        exact ⟨_, hn⟩
  · intro r rest hc hm hne
    cases rest with
    | nil => exact absurd rfl hne
    | cons r2 rest2 =>
      have hn := hview r (r2 :: rest2) hm
      rw [if_pos ⟨by simp, hc⟩] at hn
      exact hn
  · intro hm
    simp [semfieldNew, hm]
  · intro r hm
    have hn := hview r [] hm
    rw [if_neg (by simp)] at hn
    exact hn
  · intro c r rest hc hm
    have hn := hview r rest hm
    rw [if_neg (by rintro ⟨_, h2⟩; rw [hc] at h2; cases h2)] at hn
    exact hn

/-- Witness for C8: an ambiguous name without a code fails, naming both candidate codes. -/
theorem semfield_name_code_disambiguation_witness :
    semfieldNew "music" none
      (some [⟨"210", "music"⟩, ⟨"330", "music"⟩]) =
      .error (.valueError ("cannot disambiguate \"" ++ normalizeEnglish "music"
        ++ "\" between \"" ++ String.intercalate ", "
          (([⟨"210", "music"⟩, ⟨"330", "music"⟩] : List SemfieldRow).map (fun x => x.code))
        ++ "\"")) :=
  (semfield_name_code_disambiguation "music" none
    [⟨"210", "music"⟩, ⟨"330", "music"⟩]).2.1 ⟨"210", "music"⟩ [⟨"330", "music"⟩]
    rfl (by decide) (by decide)

/-- C9: with the relation or index table absent, `Synset.relations` and `Lemma.synsets` return an empty result as specified, but `Lemma.derivates` and `Lemma.relatives` call `.execute` on the absent (None) cursor without the guard used elsewhere and fail with `AttributeError`, contradicting the missing-table rule. -/
theorem missing_table_absent_vs_error :
    (∀ s : Synset, synsetRelations s (fun _ => none) = []) ∧
    (∀ l : Lemma, lemmaSynsets l none = .ok []) ∧
    (∀ l : Lemma, lemmaDerivates l (fun _ => none) = .error .attributeError) ∧
    (∀ l : Lemma, lemmaRelatives l (fun _ => none) = .error .attributeError) :=
  ⟨fun _ => rfl, fun _ => rfl, fun _ => rfl, fun _ => rfl⟩

/-- C10: every Relation built by `Synset.relations` comes from only the first four row columns, so its target lemma is absent, its status is the empty string and it is never lexical, whatever the underlying row carried in `w_target` or `status`. -/
theorem synset_relations_truncated (s : Synset) (rdb : RelationDB) (r : Relation)
    (hr : r ∈ synsetRelations s rdb) :
    r.w_target = none ∧ r.status = "" ∧
      ∀ resolve : String → Option Lemma, relationIsLexical r resolve = false := by
  have hkey : r.w_target = none ∧ r.status = "" := by
    unfold synsetRelations at hr
    rcases List.mem_append.mp hr with h | h
    · revert h
      cases rdb "common" with
      | none => intro h; simp at h
      | some rows =>
        intro h
        obtain ⟨row, _, rfl⟩ := List.mem_map.mp h
        exact ⟨rfl, rfl⟩
    · revert h
      cases rdb s.language with
      | none => intro h; simp at h
      | some rows =>
        intro h
        obtain ⟨row, _, rfl⟩ := List.mem_map.mp h
        exact ⟨rfl, rfl⟩
  refine ⟨hkey.1, hkey.2, fun resolve => ?_⟩
  unfold relationIsLexical
  rw [hkey.1]
  simp [optTruthy]

/-- Witness for C10: a row carrying both a target word and a `new` status still yields an absent target, empty status and a non-lexical relation. -/
theorem synset_relations_truncated_witness :
    (⟨"@", "n#1", "n#2", some "dog", none, "", "english"⟩ : Relation).w_target = none ∧
    (⟨"@", "n#1", "n#2", some "dog", none, "", "english"⟩ : Relation).status = "" ∧
    ∀ resolve : String → Option Lemma,
      relationIsLexical ⟨"@", "n#1", "n#2", some "dog", none, "", "english"⟩ resolve = false :=
  synset_relations_truncated ⟨"n#1", "english"⟩
    (fun l => if l = "common" then
        some [⟨"@", "n#1", "n#2", some "dog", some "cat", some "new"⟩] else none)
    ⟨"@", "n#1", "n#2", some "dog", none, "", "english"⟩ (by decide)

end MultiWordnet
